import Mathlib

/-!
Formal model of the adaptive password hasher (Go package in hasher.go).

Modelling conventions:
* Go byte slices are `List Nat` (each element a byte value).
* Go `int` / `uint` are `Int` / `Nat`; Go integer division and remainder
  (which truncate toward zero) are `Int.tdiv` / `Int.tmod`; the conversion
  `uint(x)` is `uintOf` (reduction modulo 2^64).
* The external entropy source (`rand.Read`) is modelled by an explicit
  `randBytes` argument: the salt buffer of length `saltSize` receives
  whatever bytes the source supplies, the rest staying zero.  As in the
  source, no error from the source is observed.
* The external KDF (`pbkdf2.Key`) is an explicit functional argument of
  type `KDF`; theorems that need it assume only the library's contract
  (the output has the requested length).
* A Go panic is modelled by `Option.none`.  `hasher.Verify` installs a
  `recover` that converts any panic into `false`, so its model is a total
  `Bool`-valued function in which every panic point short-circuits to
  `false`; `hasher.Hash` has no recover, so its model returns an `Option`.
-/

/-- Byte strings. -/
abbrev Bytes := List Nat

/-- The two digest algorithms the package can resolve (sha256.New / sha512.New). -/
inductive HashAlg
  | sha256
  | sha512
deriving DecidableEq, Repr

/-- Type of the consumed PBKDF2-like capability:
arguments are password, salt, iteration count, output length, digest. -/
abbrev KDF := Bytes → Bytes → Int → Int → HashAlg → Bytes

/-- HashSHA256 selector constant (Go: `HashSHA256 = 1`). -/
def HashSHA256 : Int := 1

/-- HashSHA512 selector constant (Go: `HashSHA512 = 2`). -/
def HashSHA512 : Int := 2

/-- Default iteration count (Go: `DefaultIterationCount = 1000`). -/
def DefaultIterationCount : Int := 1000

/-- Default salt size in bits (Go: `DefaultSaltSize = 128`). -/
def DefaultSaltSize : Int := 128

/-- Default key size in bits (Go: `DefaultKeySize = 256`). -/
def DefaultKeySize : Int := 256

/-- Default hash key (Go: `DefaultHashKey = HashSHA256`). -/
def DefaultHashKey : Int := HashSHA256

/-- The three construction-time errors of the package. -/
inductive HashError
  | invalidIterationCount
  | invalidSaltSize
  | invalidKeySize
deriving DecidableEq, Repr

/-- Configured hasher value (Go struct `hasher`); `saltSize` and `keySize`
are stored in bytes. -/
structure hasher where
  iterCnt : Int
  saltSize : Int
  keySize : Int
  hashKey : Int
deriving DecidableEq, Repr

/-- Go constructor `New`: validates the parameters in order and stores the
bit sizes divided by 8. -/
def New (iterCtn saltSize keySize hashKey : Int) : Except HashError hasher :=
  if iterCtn < 1 then .error .invalidIterationCount
  else if saltSize.tmod 8 ≠ 0 ∨ saltSize.tdiv 8 < 1 then .error .invalidSaltSize
  else if keySize.tmod 8 ≠ 0 ∨ keySize.tdiv 8 < 1 then .error .invalidKeySize
  else .ok ⟨iterCtn, saltSize.tdiv 8, keySize.tdiv 8, hashKey⟩

/-- Format marker byte (Go: `formatMarker = 0x01`). -/
def formatMarker : Nat := 1

/-- Digest lookup (Go `alg`): `none` models the panic on an unknown key. -/
def alg (key : Int) : Option HashAlg :=
  if key = HashSHA256 then some HashAlg.sha256
  else if key = HashSHA512 then some HashAlg.sha512
  else none

/-- Go conversion `uint(i)` of a 64-bit int. -/
def uintOf (i : Int) : Nat := (i % 2 ^ 64).toNat

/-- Go `writeHeaderValue`: stores the four big-endian bytes of `value` at
`offset` .. `offset+3` (`byte(value >> k)` is reduction mod 256). -/
def writeHeaderValue (buf : Bytes) (offset : Nat) (value : Nat) : Bytes :=
  ((((buf.set (offset + 0) ((value >>> 24) % 256)).set (offset + 1)
      ((value >>> 16) % 256)).set (offset + 2)
      ((value >>> 8) % 256)).set (offset + 3) ((value >>> 0) % 256))

/-- The four big-endian bytes `writeHeaderValue` stores for a value. -/
def be4 (v : Nat) : Bytes :=
  [(v >>> 24) % 256, (v >>> 16) % 256, (v >>> 8) % 256, (v >>> 0) % 256]

/-- Go `copy(dst[offset:], src)`: overwrites `min (dst.length - offset)
src.length` bytes of `dst` starting at `offset`. -/
def copyInto (dst : Bytes) (offset : Nat) (src : Bytes) : Bytes :=
  dst.take offset ++ src.take (dst.length - offset) ++ dst.drop (offset + src.length)

/-- Salt buffer produced by `make([]byte, h.saltSize)` followed by
`rand.Read(salt)` when the entropy source supplies `randBytes`: the buffer
keeps its length `saltSize`, bytes beyond what the source supplied stay 0.
The error returned by `rand.Read` is discarded by the source. -/
def saltOf (h : hasher) (randBytes : Bytes) : Bytes :=
  randBytes.take h.saltSize.toNat ++
    List.replicate (h.saltSize.toNat - randBytes.length) 0

/-- Go method `(h *hasher) Hash`: derive a sub-key and assemble the encoded
buffer.  `none` models the panic of `alg` on an unrecognised hash key. -/
def hasher.Hash (h : hasher) (pwd randBytes : Bytes) (kdf : KDF) : Option Bytes :=
  let salt := saltOf h randBytes
  match alg h.hashKey with
  | none => none
  | some a =>
    let subKey := kdf pwd salt h.iterCnt h.keySize a
    let out0 := List.replicate ((13 + h.saltSize + h.keySize).toNat) 0
    let out1 := out0.set 0 formatMarker
    let out2 := writeHeaderValue out1 1 (uintOf h.hashKey)
    let out3 := writeHeaderValue out2 5 (uintOf h.iterCnt)
    let out4 := writeHeaderValue out3 9 (uintOf (salt.length : Int))
    let out5 := copyInto out4 13 salt
    let out6 := copyInto out5 (13 + salt.length) subKey
    some out6

/-- Go `subtle.ConstantTimeCompare`: 1 when the two byte strings are equal
(including length), 0 otherwise. -/
def ConstantTimeCompare (x y : Bytes) : Int := if x = y then 1 else 0

/-- One header field read of `scanHeader`:
`int(buf[i])<<24 | int(buf[i+1])<<16 | int(buf[i+2])<<8 | int(buf[i+3])`.
`none` models the index panic on a buffer that is too short. -/
def readHeaderValue (buf : Bytes) (i : Nat) : Option Nat :=
  match buf[i]?, buf[i + 1]?, buf[i + 2]?, buf[i + 3]? with
  | some b0, some b1, some b2, some b3 =>
    some ((b0 <<< 24) ||| (b1 <<< 16) ||| (b2 <<< 8) ||| b3)
  | _, _, _, _ => none

/-- Go `scanHeader`: reads the selector (resolving it through `alg`, which
may panic), the iteration count and the salt length. -/
def scanHeader (buf : Bytes) : Option (HashAlg × Nat × Nat) :=
  match readHeaderValue buf 1 with
  | none => none
  | some v1 =>
    match alg (v1 : Int) with
    | none => none
    | some hashAlg =>
      match readHeaderValue buf 5 with
      | none => none
      | some v5 =>
        match readHeaderValue buf 9 with
        | none => none
        | some v9 => some (hashAlg, v5, v9)

/-- Go method `(h *hasher) Verify`.  The deferred `recover` turns every
panic into `false`, so each panic point below short-circuits to `false`:
indexing an empty slice, the panics inside `scanHeader`, and the slice
expression `hash[13 : 13+saltLen]` reaching past the end. -/
def hasher.Verify (h : hasher) (pwd hsh : Bytes) (kdf : KDF) : Bool :=
  match hsh[0]? with
  | none => false
  | some b0 =>
    if b0 ≠ formatMarker then false
    else
      match scanHeader hsh with
      | none => false
      | some (hashFunc, iterCnt, saltLen) =>
        if (saltLen : Int) < h.saltSize then false
        else if hsh.length < 13 + saltLen then false
        else
          let salt := (hsh.drop 13).take saltLen
          let subKeyLen := hsh.length - 13 - saltLen
          if (subKeyLen : Int) < h.keySize then false
          else
            let expected := (hsh.drop (13 + saltLen)).take subKeyLen
            let actual := kdf pwd salt (iterCnt : Int) (subKeyLen : Int) hashFunc
            ConstantTimeCompare actual expected == 1

/-- Process-wide default hasher set up by the package `init` function;
`New`'s error is discarded, a failure would leave the `nil` value (`none`). -/
def defaultHasher : Option hasher :=
  (New DefaultIterationCount DefaultSaltSize DefaultKeySize DefaultHashKey).toOption

/-- Top-level `Hash`: delegates to the default hasher.  A `nil` default
hasher would make the call panic (`none`). -/
def Hash (pwd randBytes : Bytes) (kdf : KDF) : Option Bytes :=
  match defaultHasher with
  | some h => hasher.Hash h pwd randBytes kdf
  | none => none

/-- Top-level `Verify`: delegates to the default hasher.  With a `nil`
default hasher the nil dereference would be caught by `Verify`'s own
`recover`, yielding `false`. -/
def Verify (pwd hsh : Bytes) (kdf : KDF) : Bool :=
  match defaultHasher with
  | some h => hasher.Verify h pwd hsh kdf
  | none => false

/-- A trivial stand-in KDF used for concrete evaluations: returns the
requested number of zero bytes. -/
def kdfZero : KDF := fun _ _ _ l _ => List.replicate l.toNat 0

/-- A KDF that satisfies the length contract of the consumed capability and
distinguishes whether at least one iteration was requested. -/
def kdfCex : KDF := fun _ _ i l _ => List.replicate l.toNat (if 1 ≤ i then 1 else 0)

instance : DecidableEq (Except HashError hasher) := fun x y =>
  match x, y with
  | .ok a, .ok b =>
    if h : a = b then .isTrue (by rw [h]) else .isFalse (by simp [h])
  | .error a, .error b =>
    if h : a = b then .isTrue (by rw [h]) else .isFalse (by simp [h])
  | .ok _, .error _ => .isFalse (by simp)
  | .error _, .ok _ => .isFalse (by simp)

/-! ## Helper lemmas -/

/-- Disjoint bitwise-or is addition: the shifted summand occupies the high
bits only. -/
theorem lor_shift_add (a b n : Nat) (hb : b < 2 ^ n) :
    (a <<< n) ||| b = a * 2 ^ n + b := by
  calc (a <<< n) ||| b = 2 ^ n * a ||| b := by rw [Nat.shiftLeft_eq, Nat.mul_comm]
    _ = 2 ^ n * a + b := (Nat.mul_add_lt_is_or hb a).symm
    _ = a * 2 ^ n + b := by rw [Nat.mul_comm]

/-- Combining four bytes big-endian, as `scanHeader` does. -/
theorem or_chain_bytes (b0 b1 b2 b3 : Nat) (_h0 : b0 < 256) (h1 : b1 < 256)
    (h2 : b2 < 256) (h3 : b3 < 256) :
    (b0 <<< 24) ||| (b1 <<< 16) ||| (b2 <<< 8) ||| b3 =
      b0 * 2 ^ 24 + b1 * 2 ^ 16 + b2 * 2 ^ 8 + b3 := by
  rw [Nat.lor_assoc, Nat.lor_assoc]
  rw [lor_shift_add b2 b3 8 (by omega)]
  rw [lor_shift_add b1 (b2 * 2 ^ 8 + b3) 16 (by norm_num; omega)]
  rw [lor_shift_add b0 (b1 * 2 ^ 16 + (b2 * 2 ^ 8 + b3)) 24 (by norm_num; omega)]
  ring

/-- Reading back the four bytes written for `v` recovers `v` mod 2^32. -/
theorem beRead_val (v : Nat) :
    (((v >>> 24) % 256) <<< 24) ||| (((v >>> 16) % 256) <<< 16) |||
      (((v >>> 8) % 256) <<< 8) ||| ((v >>> 0) % 256) = v % 2 ^ 32 := by
  rw [or_chain_bytes _ _ _ _ (Nat.mod_lt _ (by omega)) (Nat.mod_lt _ (by omega))
    (Nat.mod_lt _ (by omega)) (Nat.mod_lt _ (by omega))]
  rw [Nat.shiftRight_eq_div_pow, Nat.shiftRight_eq_div_pow,
    Nat.shiftRight_eq_div_pow, Nat.shiftRight_eq_div_pow]
  norm_num
  omega

/-- Writing a header value does not change the buffer length. -/
theorem writeHeaderValue_length (buf : Bytes) (o v : Nat) :
    (writeHeaderValue buf o v).length = buf.length := by
  simp [writeHeaderValue]

/-- Copying into a buffer does not change its length. -/
theorem copyInto_length (dst : Bytes) (o : Nat) (src : Bytes) :
    (copyInto dst o src).length = dst.length := by
  simp [copyInto]
  omega

/-- A header write at the length of a prefix splices the four bytes in. -/
theorem writeHeaderValue_splice (pre : Bytes) (b0 b1 b2 b3 : Nat) (post : Bytes)
    (v : Nat) :
    writeHeaderValue (pre ++ b0 :: b1 :: b2 :: b3 :: post) pre.length v =
      pre ++ (be4 v ++ post) := by
  unfold writeHeaderValue
  rw [List.set_append_right _ _ (by omega), List.set_append_right _ _ (by simp),
    List.set_append_right _ _ (by simp), List.set_append_right _ _ (by simp)]
  simp [be4]

/-- A copy at the length of a prefix, fitting inside the suffix, splices the
source in. -/
theorem copyInto_splice (pre post src : Bytes) (h : src.length ≤ post.length) :
    copyInto (pre ++ post) pre.length src =
      pre ++ (src ++ post.drop src.length) := by
  unfold copyInto
  rw [List.take_left, List.take_of_length_le (by simp; omega)]
  rw [show pre.length + src.length = pre.length + src.length from rfl]
  rw [← List.drop_drop, List.drop_left]
  simp

/-- The salt buffer always has exactly the configured byte length,
regardless of how many bytes the entropy source supplied. -/
theorem saltOf_length (h : hasher) (rb : Bytes) :
    (saltOf h rb).length = h.saltSize.toNat := by
  simp [saltOf]
  omega

/-- Dropping the first block of a replicated list leaves the second block. -/
theorem drop_replicate_add (n m : Nat) (a : Nat) :
    (List.replicate (n + m) a).drop n = List.replicate m a := by
  rw [List.replicate_add]
  exact List.drop_left' (List.length_replicate n a)

/-- Header write at offset 1 on a buffer with five explicit bytes. -/
theorem writeHeaderValue_at1 (x0 a1 a2 a3 a4 : Nat) (t : Bytes) (v : Nat) :
    writeHeaderValue (x0 :: a1 :: a2 :: a3 :: a4 :: t) 1 v =
      x0 :: ((v >>> 24) % 256) :: ((v >>> 16) % 256) :: ((v >>> 8) % 256) ::
        ((v >>> 0) % 256) :: t := rfl

/-- Header write at offset 5. -/
theorem writeHeaderValue_at5 (x0 a1 a2 a3 a4 b1 b2 b3 b4 : Nat) (t : Bytes) (v : Nat) :
    writeHeaderValue (x0 :: a1 :: a2 :: a3 :: a4 :: b1 :: b2 :: b3 :: b4 :: t) 5 v =
      x0 :: a1 :: a2 :: a3 :: a4 :: ((v >>> 24) % 256) :: ((v >>> 16) % 256) ::
        ((v >>> 8) % 256) :: ((v >>> 0) % 256) :: t := rfl

/-- Header write at offset 9. -/
theorem writeHeaderValue_at9 (x0 a1 a2 a3 a4 b1 b2 b3 b4 c1 c2 c3 c4 : Nat)
    (t : Bytes) (v : Nat) :
    writeHeaderValue
        (x0 :: a1 :: a2 :: a3 :: a4 :: b1 :: b2 :: b3 :: b4 :: c1 :: c2 :: c3 :: c4 :: t)
        9 v =
      x0 :: a1 :: a2 :: a3 :: a4 :: b1 :: b2 :: b3 :: b4 :: ((v >>> 24) % 256) ::
        ((v >>> 16) % 256) :: ((v >>> 8) % 256) :: ((v >>> 0) % 256) :: t := rfl

/-- Copy at offset 13 on a buffer with thirteen explicit header bytes. -/
theorem copyInto_at13 (x0 x1 x2 x3 x4 x5 x6 x7 x8 x9 x10 x11 x12 : Nat)
    (t src : Bytes) (h : src.length ≤ t.length) :
    copyInto (x0 :: x1 :: x2 :: x3 :: x4 :: x5 :: x6 :: x7 :: x8 :: x9 :: x10 ::
        x11 :: x12 :: t) 13 src =
      x0 :: x1 :: x2 :: x3 :: x4 :: x5 :: x6 :: x7 :: x8 :: x9 :: x10 :: x11 ::
        x12 :: (src ++ t.drop src.length) := by
  have hc := copyInto_splice
    [x0, x1, x2, x3, x4, x5, x6, x7, x8, x9, x10, x11, x12] t src h
  simpa using hc

/-- Copy at offset `13 + mid.length` on a buffer with thirteen explicit
header bytes followed by `mid`. -/
theorem copyInto_at13_mid (x0 x1 x2 x3 x4 x5 x6 x7 x8 x9 x10 x11 x12 : Nat)
    (mid t src : Bytes) (h : src.length ≤ t.length) :
    copyInto (x0 :: x1 :: x2 :: x3 :: x4 :: x5 :: x6 :: x7 :: x8 :: x9 :: x10 ::
        x11 :: x12 :: (mid ++ t)) (13 + mid.length) src =
      x0 :: x1 :: x2 :: x3 :: x4 :: x5 :: x6 :: x7 :: x8 :: x9 :: x10 :: x11 ::
        x12 :: (mid ++ (src ++ t.drop src.length)) := by
  have hc := copyInto_splice
    ([x0, x1, x2, x3, x4, x5, x6, x7, x8, x9, x10, x11, x12] ++ mid) t src h
  rw [show ([x0, x1, x2, x3, x4, x5, x6, x7, x8, x9, x10, x11, x12] ++ mid).length
      = 13 + mid.length by simp; omega] at hc
  simpa using hc

/-- Structure of the buffer produced by `hasher.Hash`: marker byte, three
big-endian header fields, then salt and sub-key contiguously. -/
theorem Hash_shape (h : hasher) (pwd rb : Bytes) (kdf : KDF) (a : HashAlg)
    (ha : alg h.hashKey = some a)
    (hs : 1 ≤ h.saltSize) (hk : 1 ≤ h.keySize)
    (hkdf : (kdf pwd (saltOf h rb) h.iterCnt h.keySize a).length = h.keySize.toNat) :
    hasher.Hash h pwd rb kdf =
      some (formatMarker :: (be4 (uintOf h.hashKey) ++ (be4 (uintOf h.iterCnt) ++
        (be4 (uintOf ((saltOf h rb).length : Int)) ++
          (saltOf h rb ++ kdf pwd (saltOf h rb) h.iterCnt h.keySize a))))) := by
  simp only [hasher.Hash, ha]
  have hsplit : ((13 : Int) + h.saltSize + h.keySize).toNat =
      13 + (h.saltSize.toNat + h.keySize.toNat) := by omega
  rw [hsplit]
  have hrep : List.replicate (13 + (h.saltSize.toNat + h.keySize.toNat)) (0 : Nat) =
      0 :: 0 :: 0 :: 0 :: 0 :: 0 :: 0 :: 0 :: 0 :: 0 :: 0 :: 0 :: 0 ::
        List.replicate (h.saltSize.toNat + h.keySize.toNat) 0 := by
    rw [List.replicate_add]
    rfl
  rw [hrep, List.set_cons_zero]
  rw [writeHeaderValue_at1, writeHeaderValue_at5, writeHeaderValue_at9]
  rw [copyInto_at13 _ _ _ _ _ _ _ _ _ _ _ _ _ _ _
    (by rw [saltOf_length]; simp)]
  rw [show (List.replicate (h.saltSize.toNat + h.keySize.toNat) (0 : Nat)).drop
        (saltOf h rb).length = List.replicate h.keySize.toNat 0 by
      rw [saltOf_length]; exact drop_replicate_add _ _ _]
  rw [copyInto_at13_mid _ _ _ _ _ _ _ _ _ _ _ _ _ _ _ _
    (by rw [hkdf]; simp)]
  rw [show (List.replicate h.keySize.toNat (0 : Nat)).drop
        (kdf pwd (saltOf h rb) h.iterCnt h.keySize a).length = ([] : Bytes) by
      rw [hkdf]
      have hdl := List.drop_length (List.replicate h.keySize.toNat (0 : Nat))
      rwa [List.length_replicate] at hdl]
  simp [be4]

/-- Reading the header field at offset 1 of a shaped buffer. -/
theorem readHeaderValue_shape1 (x v : Nat) (rest : Bytes) :
    readHeaderValue (x :: (be4 v ++ rest)) 1 = some (v % 2 ^ 32) := by
  simp only [be4, List.cons_append, List.nil_append, readHeaderValue,
    List.getElem?_cons_succ, List.getElem?_cons_zero]
  rw [beRead_val]

/-- Reading the header field at offset 5 of a shaped buffer. -/
theorem readHeaderValue_shape5 (x u v : Nat) (rest : Bytes) :
    readHeaderValue (x :: (be4 u ++ (be4 v ++ rest))) 5 = some (v % 2 ^ 32) := by
  simp only [be4, List.cons_append, List.nil_append, readHeaderValue,
    List.getElem?_cons_succ, List.getElem?_cons_zero]
  rw [beRead_val]

/-- Reading the header field at offset 9 of a shaped buffer. -/
theorem readHeaderValue_shape9 (x u w v : Nat) (rest : Bytes) :
    readHeaderValue (x :: (be4 u ++ (be4 w ++ (be4 v ++ rest)))) 9 =
      some (v % 2 ^ 32) := by
  simp only [be4, List.cons_append, List.nil_append, readHeaderValue,
    List.getElem?_cons_succ, List.getElem?_cons_zero]
  rw [beRead_val]

/-- Scanning the header of a shaped buffer whose selector field resolves. -/
theorem scanHeader_shape (x u1 u5 u9 : Nat) (rest : Bytes) (g : HashAlg)
    (hg : alg ((u1 % 2 ^ 32 : Nat) : Int) = some g) :
    scanHeader (x :: (be4 u1 ++ (be4 u5 ++ (be4 u9 ++ rest)))) =
      some (g, u5 % 2 ^ 32, u9 % 2 ^ 32) := by
  unfold scanHeader
  rw [readHeaderValue_shape1, readHeaderValue_shape5, readHeaderValue_shape9]
  show (match alg ((u1 % 2 ^ 32 : Nat) : Int) with
    | none => none
    | some hashAlg => some (hashAlg, u5 % 2 ^ 32, u9 % 2 ^ 32)) =
      some (g, u5 % 2 ^ 32, u9 % 2 ^ 32)
  rw [hg]

/-- A small nonnegative int survives the uint conversion and the 32-bit
truncation of the header round-trip. -/
theorem uintOf_small (i : Int) (h0 : 0 ≤ i) (h1 : i < 2 ^ 32) :
    uintOf i % 2 ^ 32 = i.toNat := by
  unfold uintOf
  rw [Int.emod_eq_of_lt h0 (by norm_num; omega)]
  omega

/-- Inversion of a successful `New`: the validated facts and the stored
fields. -/
theorem New_ok_elim (i sB kB hk : Int) (h : hasher)
    (hnew : New i sB kB hk = .ok h) :
    1 ≤ i ∧ sB.tmod 8 = 0 ∧ 1 ≤ sB.tdiv 8 ∧ kB.tmod 8 = 0 ∧ 1 ≤ kB.tdiv 8 ∧
      h = ⟨i, sB.tdiv 8, kB.tdiv 8, hk⟩ := by
  unfold New at hnew
  split_ifs at hnew with h1 h2 h3
  any_goals simp at hnew
  rw [not_or, not_lt] at h2 h3
  push_neg at h1
  exact ⟨h1, by omega, by omega, by omega, by omega, hnew.symm⟩

/-- Evaluation of `hasher.Verify` on an input that passes every check: the
result is the constant-time comparison of the re-derived and stored
sub-keys, with the kdf invoked on the stored salt, stored iteration count
and stored sub-key length. -/
theorem Verify_eval (h : hasher) (pwd hsh : Bytes) (kdf : KDF) (g : HashAlg)
    (iterN saltLenN : Nat)
    (h0 : hsh[0]? = some formatMarker)
    (hscan : scanHeader hsh = some (g, iterN, saltLenN))
    (hfloor1 : ¬((saltLenN : Int) < h.saltSize))
    (hfit : ¬(hsh.length < 13 + saltLenN))
    (hfloor2 : ¬(((hsh.length - 13 - saltLenN : Nat) : Int) < h.keySize)) :
    hasher.Verify h pwd hsh kdf =
      (ConstantTimeCompare
        (kdf pwd ((hsh.drop 13).take saltLenN) (iterN : Int)
          ((hsh.length - 13 - saltLenN : Nat) : Int) g)
        ((hsh.drop (13 + saltLenN)).take (hsh.length - 13 - saltLenN)) == 1) := by
  simp only [hasher.Verify, h0, hscan, ne_eq, not_true_eq_false, if_false,
    if_neg hfloor1, if_neg hfit, if_neg hfloor2]

/-- Dropping the 13 header bytes of a shaped buffer leaves salt and sub-key. -/
theorem drop13_shape (u1 u5 u9 : Nat) (rest : Bytes) :
    (formatMarker :: (be4 u1 ++ (be4 u5 ++ (be4 u9 ++ rest)))).drop 13 = rest := by
  simp [be4]

/-- Length of a shaped buffer. -/
theorem length_shape (u1 u5 u9 : Nat) (rest : Bytes) :
    (formatMarker :: (be4 u1 ++ (be4 u5 ++ (be4 u9 ++ rest)))).length =
      13 + rest.length := by
  simp [be4]
  omega

/-- `hasher.Verify` on a buffer of the exact shape `hasher.Hash` produces,
when the floor checks pass: the result is the comparison of the re-derived
sub-key against the stored one. -/
theorem Verify_shape (h : hasher) (pwd : Bytes) (kdf : KDF) (u1 u5 u9 : Nat)
    (S K : Bytes) (g : HashAlg)
    (hg : alg ((u1 % 2 ^ 32 : Nat) : Int) = some g)
    (hu9 : u9 % 2 ^ 32 = S.length)
    (hfloor1 : ¬((S.length : Int) < h.saltSize))
    (hfloor2 : ¬((K.length : Int) < h.keySize)) :
    hasher.Verify h pwd
        (formatMarker :: (be4 u1 ++ (be4 u5 ++ (be4 u9 ++ (S ++ K))))) kdf =
      (ConstantTimeCompare
        (kdf pwd S ((u5 % 2 ^ 32 : Nat) : Int) ((K.length : Nat) : Int) g) K == 1) := by
  have hlen := length_shape u1 u5 u9 (S ++ K)
  rw [List.length_append] at hlen
  have hsub : (formatMarker :: (be4 u1 ++ (be4 u5 ++ (be4 u9 ++ (S ++ K))))).length -
      13 - S.length = K.length := by omega
  have hev := Verify_eval h pwd
    (formatMarker :: (be4 u1 ++ (be4 u5 ++ (be4 u9 ++ (S ++ K))))) kdf g
    (u5 % 2 ^ 32) S.length
    (by simp)
    (by rw [scanHeader_shape _ _ _ _ _ g hg, hu9])
    hfloor1
    (by omega)
    (by rw [hsub]; exact hfloor2)
  rw [hev, hsub]
  rw [drop13_shape, List.take_left]
  rw [← List.drop_drop, drop13_shape, List.drop_left, List.take_length]

/-- The stand-in KDFs satisfy the length contract of the consumed
capability. -/
theorem kdfCex_length (p s : Bytes) (i l : Int) (g : HashAlg) :
    (kdfCex p s i l g).length = l.toNat := by
  simp [kdfCex]

/-- C1 (amended): For every password, every hasher validly constructed by
`New` (iteration count at least 1 and below 2^32, salt and key bit sizes
positive multiples of 8 with the salt byte size below 2^32, digest selector
one of the two enumerated values), and every KDF meeting the length
contract, hashing then verifying the same password succeeds. -/
theorem Verify_of_Hash_roundtrip (iterCtn saltBits keyBits hashKey : Int)
    (h : hasher) (pwd rb : Bytes) (kdf : KDF)
    (hnew : New iterCtn saltBits keyBits hashKey = .ok h)
    (hkey : hashKey = HashSHA256 ∨ hashKey = HashSHA512)
    (hiter : iterCtn < 2 ^ 32)
    (hsaltB : saltBits.tdiv 8 < 2 ^ 32)
    (hkdf : ∀ p s i l g, (kdf p s i l g).length = l.toNat) :
    hasher.Hash h pwd rb kdf ≠ none ∧
      hasher.Verify h pwd ((hasher.Hash h pwd rb kdf).getD []) kdf = true := by
  obtain ⟨hi, hsm, hsd, hkm, hkd, hfields⟩ := New_ok_elim _ _ _ _ _ hnew
  have f1 : h.iterCnt = iterCtn := by rw [hfields]
  have f2 : h.saltSize = saltBits.tdiv 8 := by rw [hfields]
  have f3 : h.keySize = keyBits.tdiv 8 := by rw [hfields]
  have f4 : h.hashKey = hashKey := by rw [hfields]
  have hkey0 : 0 ≤ hashKey := by
    rcases hkey with rfl | rfl <;> norm_num [HashSHA256, HashSHA512]
  have hkey32 : hashKey < 2 ^ 32 := by
    rcases hkey with rfl | rfl <;> norm_num [HashSHA256, HashSHA512]
  obtain ⟨g, hg⟩ : ∃ g, alg hashKey = some g := by
    rcases hkey with rfl | rfl
    · exact ⟨_, rfl⟩
    · exact ⟨_, rfl⟩
  have hSlen : (saltOf h rb).length = h.saltSize.toNat := saltOf_length h rb
  have hKlen : (kdf pwd (saltOf h rb) h.iterCnt h.keySize g).length =
      h.keySize.toNat := hkdf _ _ _ _ _
  have hshape := Hash_shape h pwd rb kdf g (by rw [f4]; exact hg)
    (by omega) (by omega) (hkdf _ _ _ _ _)
  refine ⟨by rw [hshape]; simp, ?_⟩
  rw [hshape]
  simp only [Option.getD_some]
  have hga : alg ((uintOf h.hashKey % 2 ^ 32 : Nat) : Int) = some g := by
    rw [f4, uintOf_small hashKey hkey0 hkey32,
      show ((hashKey.toNat : Nat) : Int) = hashKey by omega]
    exact hg
  have hu9a : uintOf ((saltOf h rb).length : Int) % 2 ^ 32 =
      (saltOf h rb).length := by
    rw [uintOf_small _ (by omega) (by rw [hSlen, f2]; omega)]
    omega
  have hfl1 : ¬(((saltOf h rb).length : Int) < h.saltSize) := by
    rw [hSlen]
    omega
  have hfl2 : ¬(((kdf pwd (saltOf h rb) h.iterCnt h.keySize g).length : Int) <
      h.keySize) := by
    rw [hKlen]
    omega
  rw [Verify_shape h pwd kdf _ _ _ _ _ g hga hu9a hfl1 hfl2]
  rw [hKlen]
  rw [show ((uintOf h.iterCnt % 2 ^ 32 : Nat) : Int) = h.iterCnt by
    rw [f1, uintOf_small iterCtn (by omega) hiter]
    omega]
  rw [show ((h.keySize.toNat : Nat) : Int) = h.keySize by omega]
  simp [ConstantTimeCompare]

/-- Witness: the round-trip theorem applied to the default configuration
and a concrete password, entropy supply and KDF. -/
theorem Verify_of_Hash_roundtrip_witness :
    hasher.Hash ⟨1000, 16, 32, 1⟩ [77, 121] (List.replicate 16 7) kdfZero ≠ none ∧
      hasher.Verify ⟨1000, 16, 32, 1⟩ [77, 121]
        ((hasher.Hash ⟨1000, 16, 32, 1⟩ [77, 121]
          (List.replicate 16 7) kdfZero).getD []) kdfZero = true :=
  Verify_of_Hash_roundtrip 1000 128 256 1 ⟨1000, 16, 32, 1⟩ [77, 121]
    (List.replicate 16 7) kdfZero (by decide) (Or.inl rfl) (by decide)
    (by decide) (fun p s i l g => by simp [kdfZero])

/-- C1 counterexample: the claim as stated fails at iteration count 2^32
(which is at least 1, hence a valid configuration in the claim's sense):
the 4-byte header field truncates it to 0, so verification re-derives with
iteration count 0 and, for a KDF that distinguishes the two counts,
verification of a freshly produced hash fails. -/
theorem Verify_of_Hash_roundtrip_counterexample :
    New (2 ^ 32) 8 8 HashSHA256 = Except.ok ⟨2 ^ 32, 1, 1, 1⟩ ∧
      hasher.Hash ⟨2 ^ 32, 1, 1, 1⟩ [] [5] kdfCex ≠ none ∧
        hasher.Verify ⟨2 ^ 32, 1, 1, 1⟩ []
          ((hasher.Hash ⟨2 ^ 32, 1, 1, 1⟩ [] [5] kdfCex).getD [])
          kdfCex = false := by
  refine ⟨by decide, by decide, by decide⟩

/-- A header field read fails when the last needed byte is out of range. -/
theorem readHeaderValue_none (buf : Bytes) (i : Nat) (h : buf[i + 3]? = none) :
    readHeaderValue buf i = none := by
  cases hb0 : buf[i]? <;> cases hb1 : buf[i + 1]? <;> cases hb2 : buf[i + 2]? <;>
    simp [readHeaderValue, hb0, hb1, hb2, h]

/-- Scanning the header of a buffer shorter than 13 bytes panics (models as
`none`): the read at offset 9 needs byte 12. -/
theorem scanHeader_short (buf : Bytes) (hlen : buf.length < 13) :
    scanHeader buf = none := by
  have h9 : readHeaderValue buf 9 = none :=
    readHeaderValue_none buf 9 (List.getElem?_eq_none (by omega))
  cases hr1 : readHeaderValue buf 1 with
  | none => simp [scanHeader, hr1]
  | some v1 =>
    cases ha : alg (v1 : Int) with
    | none => simp [scanHeader, hr1, ha]
    | some g =>
      cases hr5 : readHeaderValue buf 5 with
      | none => simp [scanHeader, hr1, ha, hr5]
      | some v5 => simp [scanHeader, hr1, ha, hr5, h9]

/-- C2: For every hasher, password and byte sequence, `hasher.Verify` is a
total Boolean function (never an error), and any input shorter than the
13-byte header, or whose first byte differs from the format marker,
makes it return `false`. -/
theorem Verify_malformed_false (h : hasher) (pwd hsh : Bytes) (kdf : KDF)
    (hbad : hsh.length < 13 ∨ hsh[0]? ≠ some formatMarker) :
    hasher.Verify h pwd hsh kdf = false := by
  unfold hasher.Verify
  cases h0 : hsh[0]? with
  | none => rfl
  | some b0 =>
    by_cases hb : b0 = formatMarker
    · subst hb
      have hlen : hsh.length < 13 := by
        rcases hbad with hl | hm
        · exact hl
        · exact absurd h0 hm
      simp [scanHeader_short hsh hlen]
    · simp [hb]

/-- Witness: a three-byte input with a wrong first byte is rejected. -/
theorem Verify_malformed_false_witness :
    hasher.Verify ⟨1000, 16, 32, 1⟩ [] [2, 0, 0] kdfZero = false :=
  Verify_malformed_false ⟨1000, 16, 32, 1⟩ [] [2, 0, 0] kdfZero (by decide)

/-- C3: A hash produced under a valid configuration (with representable
iteration count and salt size) is exactly `13 + saltSize + keySize` bytes:
byte 0 is the format marker, the digest selector, iteration count and salt
length are the 4-byte big-endian fields at offsets 1, 5 and 9 (decoding
back to the configured values), followed by the salt and the sub-key
contiguously. -/
theorem Hash_layout (iterCtn saltBits keyBits hashKey : Int) (h : hasher)
    (pwd rb : Bytes) (kdf : KDF) (g : HashAlg)
    (hnew : New iterCtn saltBits keyBits hashKey = .ok h)
    (hg : alg hashKey = some g)
    (hiter : iterCtn < 2 ^ 32) (hkey0 : 0 ≤ hashKey) (hkey32 : hashKey < 2 ^ 32)
    (hsaltB : saltBits.tdiv 8 < 2 ^ 32)
    (hkdf : ∀ p s i l a, (kdf p s i l a).length = l.toNat) :
    hasher.Hash h pwd rb kdf =
      some (formatMarker :: (be4 (uintOf h.hashKey) ++ (be4 (uintOf h.iterCnt) ++
        (be4 (uintOf ((saltOf h rb).length : Int)) ++
          (saltOf h rb ++ kdf pwd (saltOf h rb) h.iterCnt h.keySize g))))) ∧
      ((hasher.Hash h pwd rb kdf).getD []).length =
        13 + h.saltSize.toNat + h.keySize.toNat ∧
      ((hasher.Hash h pwd rb kdf).getD [])[0]? = some formatMarker ∧
      readHeaderValue ((hasher.Hash h pwd rb kdf).getD []) 1 = some hashKey.toNat ∧
      readHeaderValue ((hasher.Hash h pwd rb kdf).getD []) 5 = some iterCtn.toNat ∧
      readHeaderValue ((hasher.Hash h pwd rb kdf).getD []) 9 =
        some h.saltSize.toNat := by
  obtain ⟨hi, hsm, hsd, hkm, hkd, hfields⟩ := New_ok_elim _ _ _ _ _ hnew
  have f1 : h.iterCnt = iterCtn := by rw [hfields]
  have f2 : h.saltSize = saltBits.tdiv 8 := by rw [hfields]
  have f3 : h.keySize = keyBits.tdiv 8 := by rw [hfields]
  have f4 : h.hashKey = hashKey := by rw [hfields]
  have hSlen : (saltOf h rb).length = h.saltSize.toNat := saltOf_length h rb
  have hKlen : (kdf pwd (saltOf h rb) h.iterCnt h.keySize g).length =
      h.keySize.toNat := hkdf _ _ _ _ _
  have hshape := Hash_shape h pwd rb kdf g (by rw [f4]; exact hg)
    (by omega) (by omega) (hkdf _ _ _ _ _)
  refine ⟨hshape, ?_, ?_, ?_, ?_, ?_⟩
  · rw [hshape]
    simp only [Option.getD_some]
    rw [length_shape, List.length_append, hSlen, hKlen]
    omega
  · rw [hshape]
    simp
  · rw [hshape]
    simp only [Option.getD_some]
    rw [readHeaderValue_shape1, f4, uintOf_small hashKey hkey0 hkey32]
  · rw [hshape]
    simp only [Option.getD_some]
    rw [readHeaderValue_shape5, f1, uintOf_small iterCtn (by omega) hiter]
  · rw [hshape]
    simp only [Option.getD_some]
    rw [readHeaderValue_shape9,
      uintOf_small _ (by omega) (by rw [hSlen, f2]; omega)]
    rw [hSlen]
    simp
    omega

/-- Witness: the concrete scenario of the claim.  With the configuration
`New 1000 128 256 SHA256` and the password MyTestPassword, the buffer has
61 bytes, byte 0 is the marker, and the header decodes to iteration count
1000 and salt length 16. -/
theorem Hash_layout_witness :
    ((hasher.Hash ⟨1000, 16, 32, 1⟩
      [77, 121, 84, 101, 115, 116, 80, 97, 115, 115, 119, 111, 114, 100]
      (List.replicate 16 7) kdfZero).getD []).length = 61 ∧
    ((hasher.Hash ⟨1000, 16, 32, 1⟩
      [77, 121, 84, 101, 115, 116, 80, 97, 115, 115, 119, 111, 114, 100]
      (List.replicate 16 7) kdfZero).getD [])[0]? = some formatMarker ∧
    readHeaderValue ((hasher.Hash ⟨1000, 16, 32, 1⟩
      [77, 121, 84, 101, 115, 116, 80, 97, 115, 115, 119, 111, 114, 100]
      (List.replicate 16 7) kdfZero).getD []) 5 = some 1000 ∧
    readHeaderValue ((hasher.Hash ⟨1000, 16, 32, 1⟩
      [77, 121, 84, 101, 115, 116, 80, 97, 115, 115, 119, 111, 114, 100]
      (List.replicate 16 7) kdfZero).getD []) 9 = some 16 := by
  obtain ⟨_, hl, hb, _, h5, h9⟩ := Hash_layout 1000 128 256 1 ⟨1000, 16, 32, 1⟩
    [77, 121, 84, 101, 115, 116, 80, 97, 115, 115, 119, 111, 114, 100]
    (List.replicate 16 7) kdfZero HashAlg.sha256 (by decide) (by decide)
    (by decide) (by decide) (by decide) (by decide)
    (fun p s i l a => by simp [kdfZero])
  exact ⟨hl, hb, h5, h9⟩

/-- C4: On a well-formed encoded hash that passes the floor checks, Verify
re-derives a sub-key with the stored salt, the stored iteration count, the
digest resolved from the stored selector, and the stored sub-key region's
length (not the configuration's key size), and returns true exactly when
the re-derived sub-key equals the stored one byte for byte. -/
theorem Verify_rederives_stored (h : hasher) (pwd hsh : Bytes) (kdf : KDF)
    (g : HashAlg) (iterN saltLenN : Nat)
    (h0 : hsh[0]? = some formatMarker)
    (hscan : scanHeader hsh = some (g, iterN, saltLenN))
    (hfl1 : ¬((saltLenN : Int) < h.saltSize))
    (hfit : ¬(hsh.length < 13 + saltLenN))
    (hfl2 : ¬(((hsh.length - 13 - saltLenN : Nat) : Int) < h.keySize))
    (hkdf : ∀ p s i l a, (kdf p s i l a).length = l.toNat) :
    (hasher.Verify h pwd hsh kdf = true ↔
      kdf pwd ((hsh.drop 13).take saltLenN) (iterN : Int)
        ((hsh.length - 13 - saltLenN : Nat) : Int) g =
      (hsh.drop (13 + saltLenN)).take (hsh.length - 13 - saltLenN)) ∧
    (kdf pwd ((hsh.drop 13).take saltLenN) (iterN : Int)
        ((hsh.length - 13 - saltLenN : Nat) : Int) g).length =
      hsh.length - 13 - saltLenN := by
  constructor
  · rw [Verify_eval h pwd hsh kdf g iterN saltLenN h0 hscan hfl1 hfit hfl2]
    rcases eq_or_ne (kdf pwd ((hsh.drop 13).take saltLenN) (iterN : Int)
        ((hsh.length - 13 - saltLenN : Nat) : Int) g)
      ((hsh.drop (13 + saltLenN)).take (hsh.length - 13 - saltLenN)) with he | he <;>
      simp [ConstantTimeCompare, he]
  · rw [hkdf]
    omega

/-- Witness: a concrete 18-byte hash with salt length 2 and a 3-byte stored
sub-key, verified under a hasher whose floors it meets. -/
theorem Verify_rederives_stored_witness :
    (hasher.Verify ⟨5, 2, 3, 1⟩ []
        [1, 0, 0, 0, 1, 0, 0, 0, 5, 0, 0, 0, 2, 9, 9, 0, 0, 0] kdfZero = true ↔
      kdfZero [] [9, 9] 5 3 HashAlg.sha256 = [0, 0, 0]) ∧
    (kdfZero [] [9, 9] 5 3 HashAlg.sha256).length = 3 :=
  Verify_rederives_stored ⟨5, 2, 3, 1⟩ []
    [1, 0, 0, 0, 1, 0, 0, 0, 5, 0, 0, 0, 2, 9, 9, 0, 0, 0] kdfZero
    HashAlg.sha256 5 2 (by decide) (by decide) (by decide) (by decide)
    (by decide) (fun p s i l a => by simp [kdfZero])

/-- C5: Downgrade rejection and upgrade tolerance.  First part: whenever the
decoded salt length is below the configured salt byte size, or the
remaining sub-key region is below the configured key byte size, Verify
returns false.  Second part: when both embedded sizes meet the configured
floors (and the buffer is otherwise well formed), Verify is not rejected by
these checks: it proceeds to the sub-key comparison. -/
theorem Verify_floor_policy (h : hasher) (pwd hsh : Bytes) (kdf : KDF) :
    (∀ g iterN saltLenN, scanHeader hsh = some (g, iterN, saltLenN) →
      ((saltLenN : Int) < h.saltSize ∨
        (hsh.length : Int) - 13 - saltLenN < h.keySize) →
      hasher.Verify h pwd hsh kdf = false) ∧
    (∀ g iterN saltLenN, scanHeader hsh = some (g, iterN, saltLenN) →
      hsh[0]? = some formatMarker →
      ¬((saltLenN : Int) < h.saltSize) → 13 + saltLenN ≤ hsh.length →
      ¬(((hsh.length - 13 - saltLenN : Nat) : Int) < h.keySize) →
      hasher.Verify h pwd hsh kdf =
        (ConstantTimeCompare
          (kdf pwd ((hsh.drop 13).take saltLenN) (iterN : Int)
            ((hsh.length - 13 - saltLenN : Nat) : Int) g)
          ((hsh.drop (13 + saltLenN)).take (hsh.length - 13 - saltLenN))
          == 1)) := by
  constructor
  · intro g iterN saltLenN hscan hfl
    unfold hasher.Verify
    cases h0 : hsh[0]? with
    | none => rfl
    | some b0 =>
      by_cases hb : b0 = formatMarker
      · subst hb
        have hlen13 : 13 ≤ hsh.length := by
          by_contra hc
          rw [scanHeader_short hsh (by omega)] at hscan
          exact Option.noConfusion hscan
        rcases hfl with hA | hB
        · simp [hscan, hA]
        · by_cases hA : (saltLenN : Int) < h.saltSize
          · simp [hscan, hA]
          · by_cases hfit : hsh.length < 13 + saltLenN
            · simp [hscan, hA, hfit]
            · have hkc : ((hsh.length - 13 - saltLenN : Nat) : Int) < h.keySize := by
                omega
              simp [hscan, hA, hfit, hkc]
      · simp [hb]
  · intro g iterN saltLenN hscan h0 hfl1 hfit hfl2
    exact Verify_eval h pwd hsh kdf g iterN saltLenN h0 hscan hfl1
      (by omega) hfl2

/-- Witness: the rejection half at a concrete stored hash whose embedded
salt length 1 is below the configured salt size 16. -/
theorem Verify_floor_policy_witness :
    hasher.Verify ⟨1000, 16, 32, 1⟩ []
      [1, 0, 0, 0, 1, 0, 0, 3, 232, 0, 0, 0, 1, 5, 0, 0] kdfZero = false :=
  (Verify_floor_policy ⟨1000, 16, 32, 1⟩ []
      [1, 0, 0, 0, 1, 0, 0, 3, 232, 0, 0, 0, 1, 5, 0, 0] kdfZero).1
    HashAlg.sha256 1000 1 (by decide) (Or.inl (by decide))

/-- The Go size check `x%8 != 0 || x/8 < 1` is equivalent to the spec's
phrasing: the bit size is nonpositive or not a multiple of 8. -/
theorem size_check_iff (x : Int) :
    (x.tmod 8 ≠ 0 ∨ x.tdiv 8 < 1) ↔ (x ≤ 0 ∨ x.tmod 8 ≠ 0) := by
  have h := Int.tdiv_add_tmod x 8
  omega

/-- C6 (amended): `New` applies its three checks in order and returns the
error of the first violated constraint: the iteration-count error exactly
when the iteration count is below 1; the salt-size error exactly when the
iteration count is valid and the salt bit size is nonpositive or not a
multiple of 8; the key-size error exactly when the earlier checks pass and
the key bit size is nonpositive or not a multiple of 8; and a (complete,
never partial) hasher storing the bit sizes divided by 8 exactly when all
three constraints hold. -/
theorem New_characterization (i sB kB hk : Int) :
    (New i sB kB hk = .error .invalidIterationCount ↔ i < 1) ∧
    (New i sB kB hk = .error .invalidSaltSize ↔
      (1 ≤ i ∧ (sB ≤ 0 ∨ sB.tmod 8 ≠ 0))) ∧
    (New i sB kB hk = .error .invalidKeySize ↔
      (1 ≤ i ∧ ¬(sB ≤ 0 ∨ sB.tmod 8 ≠ 0) ∧ (kB ≤ 0 ∨ kB.tmod 8 ≠ 0))) ∧
    (New i sB kB hk = .ok ⟨i, sB.tdiv 8, kB.tdiv 8, hk⟩ ↔
      (1 ≤ i ∧ ¬(sB ≤ 0 ∨ sB.tmod 8 ≠ 0) ∧ ¬(kB ≤ 0 ∨ kB.tmod 8 ≠ 0))) := by
  have e1 := Int.tdiv_add_tmod sB 8
  have e2 := Int.tdiv_add_tmod kB 8
  unfold New
  split_ifs with h1 h2 h3 <;> refine ⟨?_, ?_, ?_, ?_⟩ <;> simp <;> omega

/-- C6 counterexample: at `New 0 7 256 1` the salt bit size 7 violates its
constraint (not a multiple of 8), yet the returned error is the
iteration-count error, not the salt-size error: the claim's unqualified
"salt-size error exactly when the salt bit size is invalid" fails. -/
theorem New_error_order_counterexample :
    New 0 7 256 1 = Except.error HashError.invalidIterationCount ∧
      ((7 : Int) ≤ 0 ∨ (7 : Int).tmod 8 ≠ 0) ∧
      ¬(New 0 7 256 1 = Except.error HashError.invalidSaltSize) := by
  refine ⟨by decide, by decide, by decide⟩

/-- C7: Verify returns false (a recoverable outcome, not a fault) whenever
the 4-byte selector field at offset 1 decodes to anything other than the
two supported values. -/
theorem Verify_unknown_selector_false (h : hasher) (pwd hsh : Bytes)
    (kdf : KDF) (v : Nat)
    (hv : readHeaderValue hsh 1 = some v) (hv1 : v ≠ 1) (hv2 : v ≠ 2) :
    hasher.Verify h pwd hsh kdf = false := by
  have halg : alg (v : Int) = none := by
    unfold alg HashSHA256 HashSHA512
    rw [if_neg (by omega), if_neg (by omega)]
  have hscan : scanHeader hsh = none := by
    simp only [scanHeader, hv, halg]
  unfold hasher.Verify
  cases h0 : hsh[0]? with
  | none => rfl
  | some b0 =>
    by_cases hb : b0 = formatMarker
    · subst hb
      simp [hscan]
    · simp [hb]

/-- Witness: a header whose selector field holds 3 is rejected. -/
theorem Verify_unknown_selector_false_witness :
    hasher.Verify ⟨1000, 16, 32, 1⟩ []
      [1, 0, 0, 0, 3, 0, 0, 0, 1, 0, 0, 0, 1, 0] kdfZero = false :=
  Verify_unknown_selector_false ⟨1000, 16, 32, 1⟩ []
    [1, 0, 0, 0, 3, 0, 0, 0, 1, 0, 0, 0, 1, 0] kdfZero 3
    (by decide) (by decide) (by decide)

/-- C8 (code evaluated at the failing input): when the entropy source
supplies no bytes at all, `hasher.Hash` still proceeds - it derives a key
from an all-zero salt and returns a full buffer; no error outcome exists on
this path, because the source discards the value returned by rand.Read. -/
theorem Hash_entropy_failure_ignored :
    hasher.Hash ⟨1000, 16, 32, 1⟩ [77] [] kdfZero =
      some (formatMarker :: (be4 1 ++ (be4 1000 ++ (be4 16 ++
        (List.replicate 16 0 ++ List.replicate 32 0))))) := by
  decide

/-- C9: The package-level default hasher is the one `New` builds from the
documented defaults (iteration count 1000, salt 128 bits = 16 bytes, key
256 bits = 32 bytes, SHA-256 selector), and the top-level `Hash` and
`Verify` delegate to it: on every input they return exactly what a hasher
explicitly constructed with those parameters returns. -/
theorem default_hasher_delegation :
    defaultHasher = some ⟨1000, 16, 32, 1⟩ ∧
    New DefaultIterationCount DefaultSaltSize DefaultKeySize DefaultHashKey =
      Except.ok ⟨1000, 16, 32, 1⟩ ∧
    DefaultIterationCount = 1000 ∧ DefaultSaltSize = 128 ∧
    DefaultKeySize = 256 ∧ DefaultHashKey = HashSHA256 ∧
    (∀ pwd rb kdf, Hash pwd rb kdf = hasher.Hash ⟨1000, 16, 32, 1⟩ pwd rb kdf) ∧
    (∀ pwd hsh kdf,
      Verify pwd hsh kdf = hasher.Verify ⟨1000, 16, 32, 1⟩ pwd hsh kdf) := by
  refine ⟨by decide, by decide, rfl, rfl, rfl, rfl, ?_, ?_⟩
  · intro pwd rb kdf
    simp only [Hash, show defaultHasher = some (⟨1000, 16, 32, 1⟩ : hasher)
      from by decide]
  · intro pwd hsh kdf
    simp only [Verify, show defaultHasher = some (⟨1000, 16, 32, 1⟩ : hasher)
      from by decide]

/-- C10: `New` performs no validation of the digest selector: with
otherwise valid parameters and any selector outside the two enumerated
values it still succeeds, and calling `Hash` on the resulting hasher
reaches the panic branch of the digest lookup (modelled by `none`), with no
recovery on the `Hash` path. -/
theorem New_unknown_selector_Hash_panics (i sB kB hk : Int)
    (hi : 1 ≤ i) (hsm : sB.tmod 8 = 0) (hsd : 1 ≤ sB.tdiv 8)
    (hkm : kB.tmod 8 = 0) (hkd : 1 ≤ kB.tdiv 8)
    (hk1 : hk ≠ HashSHA256) (hk2 : hk ≠ HashSHA512) :
    New i sB kB hk = .ok ⟨i, sB.tdiv 8, kB.tdiv 8, hk⟩ ∧
      ∀ pwd rb kdf,
        hasher.Hash ⟨i, sB.tdiv 8, kB.tdiv 8, hk⟩ pwd rb kdf = none := by
  constructor
  · unfold New
    rw [if_neg (by omega), if_neg (by omega), if_neg (by omega)]
  · intro pwd rb kdf
    have halg : alg hk = none := by
      unfold alg
      rw [if_neg hk1, if_neg hk2]
    simp only [hasher.Hash, halg]

/-- Witness: selector 3 with valid remaining parameters; construction
succeeds and hashing panics. -/
theorem New_unknown_selector_Hash_panics_witness :
    hasher.Hash ⟨1000, 1, 1, 3⟩ [] [] kdfZero = none :=
  (New_unknown_selector_Hash_panics 1000 8 8 3 (by decide) (by decide)
    (by decide) (by decide) (by decide) (by decide) (by decide)).2 [] [] kdfZero
